import Mathlib

/-!
Verification development for the Eva event-virtualizer backend
(`eva/utils.go`, `eva/event.go`, `eva/eva.go`).

The Go code is shallowly embedded:
  * Go `int` is modelled as `Int` with explicit 64-bit two's-complement
    wraparound (`wrap64`) where an arithmetic operation can overflow
    (the shipped binaries target a 64-bit camera SoC).
  * `float64` values that only flow through field coercion and the
    random-float generator are modelled as `Rat`; no claim below depends
    on rounding, so this is faithful for everything stated here.
  * the global `math/rand` source is modelled as an oracle: each call
    site receives the generator's raw draw explicitly
    (a `Nat` for `rand.Intn`, a `Rat` for `rand.Float64`); `rand.Intn n`
    maps a draw into `[0, n)` by reduction mod `n` and panics
    (here: `none`) for `n ≤ 0`, exactly like the Go function.
  * the external event platform (declare / undeclare / send) is an
    oracle `Platform` giving each call's outcome, and every operation
    returns the list of platform calls it performed, so "exactly one
    unregister" style properties are statements about that trace.
  * Go panics (nil-pointer dereference in `SetupPlatformEvent`,
    `rand.Intn` with a non-positive bound) are the `panic` / `none`
    outcomes of the embedded functions.
-/

namespace Eva

/-! ## Go values on the wire (`interface{}` after JSON decoding) -/

/-- A Go `interface{}` value as it occurs in `DataFields.Value`:
either a JSON-decoded value (string / float64 / bool / null) or a Go
`int` literal as used by the demo seeds. -/
inductive GoValue : Type
  | str (s : String)
  | num (q : Rat)
  | int (i : Int)
  | bool (b : Bool)
  | null
deriving DecidableEq

/-- Result of a division-free Go computation that can also panic or
return an `error`. -/
inductive GoResult (α : Type) : Type
  | panic
  | err (msg : String)
  | ok (a : α)
deriving DecidableEq

/-! ## 64-bit machine arithmetic -/

/-- Two's-complement wraparound of a 64-bit Go `int`:
reduce into `[-2^63, 2^63)`. -/
def wrap64 (x : Int) : Int :=
  (x + 9223372036854775808) % 18446744073709551616 - 9223372036854775808

theorem wrap64_eq_self (x : Int) (h1 : -9223372036854775808 ≤ x)
    (h2 : x < 9223372036854775808) : wrap64 x = x := by
  unfold wrap64
  rw [Int.emod_eq_of_lt (by omega) (by omega)]
  omega

/-! ## Value generator (`eva/utils.go`) -/

/-- Go `strings.ToLower` restricted to the ASCII range (the Go function
applies the full Unicode table, which coincides with this on ASCII;
no event or field name in any claim leaves ASCII). -/
def goToLowerChar (c : Char) : Char :=
  if 'A' ≤ c ∧ c ≤ 'Z' then Char.ofNat (c.toNat + 32) else c

/-- Go `strings.ReplaceAll(s, " ", "")`: every occurrence of the
space character (U+0020, and only that character) is removed. -/
def goRemoveSpaces (l : List Char) : List Char :=
  match l with
  | [] => []
  | c :: cs => if c = ' ' then goRemoveSpaces cs else c :: goRemoveSpaces cs

/-- `sanitizeEventName` from `eva/utils.go`:
`strings.ReplaceAll(strings.ToLower(name), " ", "")`. -/
def sanitizeEventName (name : String) : String :=
  String.mk (goRemoveSpaces (name.toList.map goToLowerChar))

/-- Go `rand.Float64()` returns a value in `[0, 1)`; the oracle's raw
rational draw is mapped there by taking its fractional part. -/
def unitFract (q : Rat) : Rat := q - (Rat.floor q : Rat)

/-- `RandomFloatInRange` from `eva/utils.go`:
`start + (end-start)*rand.Float64()`. -/
def RandomFloatInRange (start stop : Rat) (u : Rat) : Rat :=
  start + (stop - start) * unitFract u

/-- Go `rand.Intn(n)`: panics (`none`) when `n ≤ 0`, otherwise a value
in `[0, n)` (the oracle draw reduced mod `n`). -/
def goIntn (n : Int) (draw : Nat) : Option Int :=
  if 0 < n then some ((draw : Int) % n) else none

/-- `RandomIntInRange` from `eva/utils.go`:
`rand.Intn(end-start+1) + start`, with every intermediate `int`
operation wrapping at 64 bits. -/
def RandomIntInRange (start stop : Int) (draw : Nat) : Option Int :=
  (goIntn (wrap64 (wrap64 (stop - start) + 1)) draw).map
    (fun r => wrap64 (r + start))

/-- `RandomStringFromSlice` from `eva/utils.go`. -/
def RandomStringFromSlice (choices : List String) (draw : Nat) : String :=
  if choices.length = 0 then "" else choices.getD (draw % choices.length) ""

/-- `RandomBool` from `eva/utils.go`: `rand.Intn(2) == 0`. -/
def RandomBool (draw : Nat) : Bool := draw % 2 = 0

/-! ## Data model (`eva/event.go`) -/

/-- Go `type ValueType string`: an open string type whose recognized
values are the four constants below; any other string falls into the
`default` branches of the switches. -/
abbrev ValueType := String

def StringType : ValueType := "string"
def IntType : ValueType := "int"
def FloatType : ValueType := "float"
def BoolType : ValueType := "bool"

/-- `DataFields` from `eva/event.go`. -/
structure DataFields : Type where
  Name : String
  Value : GoValue
  ValueType : ValueType
  UseRandom : Bool
  IntRandStart : Int
  IntRandEnd : Int
  FloatRandStart : Rat
  FloatRandEnd : Rat
  RandomStrings : List String
deriving DecidableEq

/-- `(*DataFields).SanitizedKey`. -/
def DataFields.SanitizedKey (d : DataFields) : String :=
  sanitizeEventName d.Name

/-- Go `int(f)` for a `float64` `f`: truncation toward zero. -/
def ratTrunc (q : Rat) : Int := q.num.tdiv q.den

/-- Go `fmt.Sprintf("%v", v)` for the values reachable in
`TypedValue`'s default branch (the float formatting is approximated;
no claim evaluates it on a float). -/
def goFormatValue (v : GoValue) : String :=
  match v with
  | .str s => s
  | .num q => toString q
  | .int i => toString i
  | .bool b => if b then "true" else "false"
  | .null => "<nil>"

/-- `(*DataFields).TypedValue` from `eva/event.go`: coerce the raw
wire value to the field's declared type (JSON numbers arrive as
float64; demo seeds store Go ints). -/
def DataFields.TypedValue (d : DataFields) : GoValue :=
  if d.ValueType = IntType then
    match d.Value with
    | .num f => .int (ratTrunc f)
    | .int i => .int i
    | _ => .int 0
  else if d.ValueType = FloatType then
    match d.Value with
    | .num f => .num f
    | _ => .num 0
  else if d.ValueType = BoolType then
    match d.Value with
    | .bool b => .bool b
    | _ => .bool false
  else
    match d.Value with
    | .str s => .str s
    | v => .str (goFormatValue v)

/-- `axevent.AXEventValueType`. -/
inductive AXEventValueType : Type
  | axString
  | axInt
  | axDouble
  | axBool
deriving DecidableEq

/-- `acapapp.EventEntry`. -/
structure EventEntry : Type where
  Key : String
  Value : GoValue
  ValueType : AXEventValueType
  KeyNiceName : Option String
  IsData : Option Bool
deriving DecidableEq

/-- `acapapp.CameraPlatformEvent`. -/
structure CameraPlatformEvent : Type where
  Name : String
  NiceName : Option String
  Entries : List EventEntry
  Stateless : Bool
deriving DecidableEq

/-- `EvaEvent` from `eva/event.go`. `ID` is the gorm primary key;
`PlatformEvent` and `EventId` are the runtime-only (`gorm:"-"`)
attributes, zero-valued on anything loaded from the database or
freshly bound from a request body. `UseInterval` and `Stateless` are
`*bool` in Go, hence `Option Bool` here (`none` = nil pointer). -/
structure EvaEvent : Type where
  ID : Nat
  Name : String
  UseInterval : Option Bool
  IntervalSeconds : Int
  DataFields : List DataFields
  Stateless : Option Bool
  PlatformEvent : Option CameraPlatformEvent
  EventId : Int
deriving DecidableEq

/-- The `switch dataField.ValueType` of `SetupPlatformEvent`. -/
def axTypeOf (vt : ValueType) : AXEventValueType :=
  if vt = StringType then .axString
  else if vt = IntType then .axInt
  else if vt = FloatType then .axDouble
  else if vt = BoolType then .axBool
  else .axString

/-- One `acapapp.EventEntry` as built inside `SetupPlatformEvent`. -/
def mkEventEntry (d : DataFields) : EventEntry :=
  { Key := d.SanitizedKey
    Value := d.TypedValue
    ValueType := axTypeOf d.ValueType
    KeyNiceName := some d.Name
    IsData := some true }

/-- `(*EvaEvent).SetupPlatformEvent` from `eva/event.go`. The Go code
dereferences `*e.Stateless` while building the struct literal, so a
nil `Stateless` pointer is a panic (`none`) before anything else
happens; on success it returns the `CameraPlatformEvent` that the Go
code stores into `e.PlatformEvent`. -/
def SetupPlatformEvent (e : EvaEvent) : Option CameraPlatformEvent :=
  match e.Stateless with
  | none => none
  | some st =>
    some
      { Name := sanitizeEventName e.Name
        NiceName := some ("Eva - " ++ e.Name)
        Entries := e.DataFields.map mkEventEntry
        Stateless := st }

/-! ## Emission snapshots (`BuildKeyValueMap`) -/

/-- `acapapp.KeyValueMap` (`map[string]interface{}`), modelled as an
association list with Go-map update semantics. -/
abbrev KeyValueMap := List (String × GoValue)

/-- Go map assignment `m[k] = v`: replace the binding if the key is
present, otherwise add it. -/
def kvSet (m : KeyValueMap) (k : String) (v : GoValue) : KeyValueMap :=
  match m with
  | [] => [(k, v)]
  | (k0, v0) :: rest =>
    if k0 = k then (k, v) :: rest else (k0, v0) :: kvSet rest k v

/-- Go map lookup `m[k]`. -/
def kvGet (m : KeyValueMap) (k : String) : Option GoValue :=
  match m with
  | [] => none
  | (k0, v0) :: rest => if k0 = k then some v0 else kvGet rest k

/-- One raw output of the shared `math/rand` source, as consumed by a
single data field of `BuildKeyValueMap`: `n` feeds the `rand.Intn`
call sites, `q` feeds `rand.Float64`. Each field performs at most one
`rand` call, so draws are indexed by field position. -/
structure RandDraw : Type where
  n : Nat
  q : Rat

/-- The loop body of `BuildKeyValueMap` (`eva/event.go`): write the
coerced static value, then, for a random field, overwrite it with the
drawn value (for a random string field only when `RandomStrings` is
non-empty). A random int field with a non-positive wrapped
`IntRandEnd - IntRandStart + 1` makes `rand.Intn` panic, which aborts
the whole snapshot (`none`). -/
def buildKVFields (draws : Nat → RandDraw) : Nat → List DataFields →
    KeyValueMap → Option KeyValueMap
  | _, [], m => some m
  | i, f :: fs, m =>
    let key := f.SanitizedKey
    let m1 := kvSet m key f.TypedValue
    if f.UseRandom then
      if f.ValueType = IntType then
        match RandomIntInRange f.IntRandStart f.IntRandEnd (draws i).n with
        | none => none
        | some v => buildKVFields draws (i + 1) fs (kvSet m1 key (.int v))
      else if f.ValueType = FloatType then
        buildKVFields draws (i + 1) fs
          (kvSet m1 key (.num (RandomFloatInRange f.FloatRandStart f.FloatRandEnd (draws i).q)))
      else if f.ValueType = StringType then
        if f.RandomStrings.length > 0 then
          buildKVFields draws (i + 1) fs
            (kvSet m1 key (.str (RandomStringFromSlice f.RandomStrings (draws i).n)))
        else buildKVFields draws (i + 1) fs m1
      else if f.ValueType = BoolType then
        buildKVFields draws (i + 1) fs (kvSet m1 key (.bool (RandomBool (draws i).n)))
      else buildKVFields draws (i + 1) fs m1
    else buildKVFields draws (i + 1) fs m1

/-- `(*EvaEvent).BuildKeyValueMap` from `eva/event.go`. -/
def BuildKeyValueMap (e : EvaEvent) (draws : Nat → RandDraw) : Option KeyValueMap :=
  buildKVFields draws 0 e.DataFields []

/-- The value `BuildKeyValueMap` leaves under a field's key, expressed
per field: the coerced static value when `UseRandom` is false, the
type-directed random draw when it is true (with the static fallback
for an empty random-string set), and `none` when the random int draw
panics. -/
def fieldEmittedValue (f : DataFields) (d : RandDraw) : Option GoValue :=
  if f.UseRandom then
    if f.ValueType = IntType then
      (RandomIntInRange f.IntRandStart f.IntRandEnd d.n).map .int
    else if f.ValueType = FloatType then
      some (.num (RandomFloatInRange f.FloatRandStart f.FloatRandEnd d.q))
    else if f.ValueType = StringType then
      some (if f.RandomStrings.length > 0 then
        .str (RandomStringFromSlice f.RandomStrings d.n) else f.TypedValue)
    else if f.ValueType = BoolType then
      some (.bool (RandomBool d.n))
    else some f.TypedValue
  else some f.TypedValue

/-! ## Registry and HTTP glue (`eva/eva.go`) -/

/-- One call into the platform collaborator (goxis/acapapp). -/
inductive PlatformCall : Type
  | declare (schema : CameraPlatformEvent)
  | undeclare (handle : Int)
deriving DecidableEq

/-- Behaviour oracle for the platform collaborator:
`declareRes` is `AddCameraPlatformEvent`'s outcome for a schema,
`undeclareRes` is `EventHandler.Undeclare`'s outcome for a handle
(`none` = success). -/
structure Platform : Type where
  declareRes : CameraPlatformEvent → Except String Int
  undeclareRes : Int → Option String

/-- Outcome of one registry operation: the Go return value, the final
state of the (pointer-mutated) event, and the platform calls made. -/
structure OpOut : Type where
  res : GoResult Unit
  event : EvaEvent
  calls : List PlatformCall
deriving DecidableEq

/-- `(*EvaApplication).registerEvent` from `eva/eva.go`:
`SetupPlatformEvent` (which panics on a nil `Stateless`), then
`AddCameraPlatformEvent`; on success the returned id is stored in
`event.EventId`, on failure `EventId` keeps its previous value. -/
def registerEvent (p : Platform) (e : EvaEvent) : OpOut :=
  match SetupPlatformEvent e with
  | none => { res := .panic, event := e, calls := [] }
  | some pe =>
    let e1 := { e with PlatformEvent := some pe }
    match p.declareRes pe with
    | .error msg => { res := .err msg, event := e1, calls := [.declare pe] }
    | .ok regId =>
      { res := .ok ()
        event := { e1 with EventId := regId }
        calls := [.declare pe] }

/-- `(*EvaApplication).unregisterEvent` from `eva/eva.go`: a no-op
when `EventId` is zero; otherwise `Undeclare(EventId)` and, only on
success, `EventId = 0`. -/
def unregisterEvent (p : Platform) (e : EvaEvent) : OpOut :=
  if e.EventId ≠ 0 then
    match p.undeclareRes e.EventId with
    | some msg => { res := .err msg, event := e, calls := [.undeclare e.EventId] }
    | none => { res := .ok (), event := { e with EventId := 0 }, calls := [.undeclare e.EventId] }
  else { res := .ok (), event := e, calls := [] }

/-- `findRegisteredEvent`: first event in the in-memory list with the
given DB id (the Go code returns a pointer to it). -/
def findRegisteredEvent (evs : List EvaEvent) (dbID : Nat) : Option EvaEvent :=
  evs.find? (fun ev => ev.ID = dbID)

/-- `removeRegisteredEvent`: drop the first event with the given id. -/
def removeRegisteredEvent (evs : List EvaEvent) (dbID : Nat) : List EvaEvent :=
  match evs with
  | [] => []
  | ev :: rest =>
    if ev.ID = dbID then rest else ev :: removeRegisteredEvent rest dbID

/-- Mutation through the pointer returned by `findRegisteredEvent`:
the first event with the given id is replaced, the rest untouched. -/
def replaceById (evs : List EvaEvent) (dbID : Nat) (e : EvaEvent) : List EvaEvent :=
  match evs with
  | [] => []
  | ev :: rest =>
    if ev.ID = dbID then e :: rest else ev :: replaceById rest dbID e

/-- `db.First(&event, id)`: lookup by primary key. -/
def dbFind (rows : List EvaEvent) (pid : Nat) : Option EvaEvent :=
  rows.find? (fun r => r.ID = pid)

/-- `db.Save(event)`: update the row with the same primary key. -/
def dbSave (rows : List EvaEvent) (e : EvaEvent) : List EvaEvent :=
  rows.map (fun r => if r.ID = e.ID then e else r)

/-- `db.Delete(&EvaEvent{}, id)`: drop the row with the given key. -/
def dbDelete (rows : List EvaEvent) (pid : Nat) : List EvaEvent :=
  rows.filter (fun r => r.ID ≠ pid)

/-- The mutable application state touched by the handlers:
the sqlite rows (with gorm's autoincrement counter) and the
mutex-guarded in-memory registry (`eva.events`, `eva.simRunning`).
This is the state as seen in the sequential order the handler bodies
execute under `eva.mu`. -/
structure Sys : Type where
  db : List EvaEvent
  nextId : Nat
  events : List EvaEvent
  simRunning : Bool
deriving DecidableEq

/-- Outcome of one HTTP handler: the HTTP status written (or a Go
panic), the state afterwards, and the platform calls made. -/
structure HandlerOut : Type where
  status : GoResult Nat
  sys : Sys
  calls : List PlatformCall
deriving DecidableEq

/-- Result values of `POST /simulation/start`. -/
inductive StartResult : Type
  | conflict
  | badRequest
  | started (eventCount : Nat)
deriving DecidableEq

/-- The `POST /simulation/start` handler from `eva/eva.go`:
409 while already running, 400 when no events are tracked, otherwise
spawn the timer tasks and set `simRunning`. -/
def startSimulationHandler (st : Sys) : StartResult × Sys :=
  if st.simRunning then (.conflict, st)
  else if st.events.length = 0 then (.badRequest, st)
  else (.started st.events.length, { st with simRunning := true })

/-- The `POST /events` handler from `eva/eva.go`. `body` is the
result of `c.Bind().Body` (`none` = bind error), `createFails` the
outcome of `db.Create`. On the success path the row is persisted and
appended to `eva.events` before `registerEvent` runs; a registration
error is only logged (still 201), a registration panic propagates. -/
def createEventHandler (p : Platform) (st : Sys) (body : Option EvaEvent)
    (createFails : Bool) : HandlerOut :=
  if st.simRunning then { status := .ok 409, sys := st, calls := [] }
  else
    match body with
    | none => { status := .ok 400, sys := st, calls := [] }
    | some newEvent =>
      if createFails then { status := .ok 500, sys := st, calls := [] }
      else
        let assigned := { newEvent with ID := st.nextId }
        let st1 := { st with db := st.db ++ [assigned], nextId := st.nextId + 1 }
        let g := registerEvent p assigned
        let st2 := { st1 with events := st1.events ++ [g.event] }
        match g.res with
        | .panic => { status := .panic, sys := st2, calls := g.calls }
        | _ => { status := .ok 201, sys := st2, calls := g.calls }

/-- The `PUT /events/:id` handler from `eva/eva.go`. `bindRes` is
`c.Bind().Body` applied to the freshly loaded row. After `db.Save`,
when the event is tracked: `unregisterEvent` (error discarded),
`*registered = *event` (a full struct overwrite), `registerEvent`
(error discarded, panic propagates). -/
def updateEventHandler (p : Platform) (st : Sys) (pid : Nat)
    (bindRes : EvaEvent → Option EvaEvent) (saveFails : Bool) : HandlerOut :=
  if st.simRunning then { status := .ok 409, sys := st, calls := [] }
  else
    match dbFind st.db pid with
    | none => { status := .ok 404, sys := st, calls := [] }
    | some row =>
      match bindRes row with
      | none => { status := .ok 400, sys := st, calls := [] }
      | some ev =>
        if saveFails then { status := .ok 500, sys := st, calls := [] }
        else
          let st1 := { st with db := dbSave st.db ev }
          match findRegisteredEvent st1.events ev.ID with
          | none => { status := .ok 200, sys := st1, calls := [] }
          | some r =>
            let u := unregisterEvent p r
            let g := registerEvent p ev
            let st2 := { st1 with events := replaceById st1.events ev.ID g.event }
            match g.res with
            | .panic => { status := .panic, sys := st2, calls := u.calls ++ g.calls }
            | _ => { status := .ok 200, sys := st2, calls := u.calls ++ g.calls }

/-- The `DELETE /events/:id` handler from `eva/eva.go`. When the
event is tracked it is unregistered (error discarded) and removed
from `eva.events` first; only then does `db.Delete` run, and its
failure is returned as 500. -/
def deleteEventHandler (p : Platform) (st : Sys) (pid : Nat)
    (deleteFails : Bool) : HandlerOut :=
  if st.simRunning then { status := .ok 409, sys := st, calls := [] }
  else
    match dbFind st.db pid with
    | none => { status := .ok 404, sys := st, calls := [] }
    | some _row =>
      let step :=
        match findRegisteredEvent st.events pid with
        | none => (st.events, ([] : List PlatformCall))
        | some r =>
          let u := unregisterEvent p r
          (removeRegisteredEvent st.events pid, u.calls)
      let st1 := { st with events := step.1 }
      if deleteFails then { status := .ok 500, sys := st1, calls := step.2 }
      else
        { status := .ok 200
          sys := { st1 with db := dbDelete st1.db pid }
          calls := step.2 }

/-- `RegisterAllEvents` from `eva/eva.go`: register every tracked
event, stopping at (and surfacing) the first error. -/
def RegisterAllEvents (p : Platform) : List EvaEvent →
    GoResult Unit × List EvaEvent × List PlatformCall
  | [] => (.ok (), [], [])
  | e :: es =>
    let g := registerEvent p e
    match g.res with
    | .panic => (.panic, g.event :: es, g.calls)
    | .err msg => (.err msg, g.event :: es, g.calls)
    | .ok _ =>
      let rest := RegisterAllEvents p es
      (rest.1, g.event :: rest.2.1, g.calls ++ rest.2.2)

/-! ## Random-interval simulation delay

The repository's README (v0.0.5 changelog, event payload shape) and
the shipped frontend use `use_random_interval` /
`interval_min_seconds` / `interval_max_seconds`, but the backend
revision vendored under `src/` predates that change: `EvaEvent` has no
such fields and `StartEventSimulation` only drives a fixed
`time.NewTicker(IntervalSeconds)`. The delay computation of the
random-interval loop therefore has to be modelled from the spec. -/

/-- Modelled from the spec: the per-cycle delay of the v0.0.5
simulation loop for an event with `useInterval=true` and
`useRandomInterval=true` — "a fresh uniform draw in
`[intervalMinSeconds, intervalMaxSeconds]`" (the missing code is the
v0.0.5 `StartEventSimulation` body). `u` is the raw draw of the
shared randomness source for one firing, mapped into `[0, 1)`. -/
def randomIntervalDelay (minS maxS : Rat) (u : Rat) : Rat :=
  minS + (maxS - minS) * unitFract u

/-- Modelled from the spec: the sequence of waiting delays of one
running random-interval timer task, "re-drawn after every firing" —
firing `k` uses the `k`-th draw of the randomness source. -/
def randomIntervalDelays (minS maxS : Rat) (us : Nat → Rat) (k : Nat) : Rat :=
  randomIntervalDelay minS maxS (us k)

/-! ## Helper lemmas about Go map updates -/

theorem kvGet_kvSet_self (m : KeyValueMap) (k : String) (v : GoValue) :
    kvGet (kvSet m k v) k = some v := by
  induction m with
  | nil => simp [kvSet, kvGet]
  | cons hd tl ih =>
    obtain ⟨k0, v0⟩ := hd
    by_cases h : k0 = k <;> simp [kvSet, kvGet, h, ih]

theorem kvGet_kvSet_ne (m : KeyValueMap) (k k2 : String) (v : GoValue)
    (h : k2 ≠ k) : kvGet (kvSet m k v) k2 = kvGet m k2 := by
  have hne : k ≠ k2 := fun hh => h hh.symm
  induction m with
  | nil => simp [kvSet, kvGet, hne]
  | cons hd tl ih =>
    obtain ⟨k0, v0⟩ := hd
    by_cases h0 : k0 = k
    · subst h0
      simp [kvSet, kvGet, hne]
    · simp [kvSet, kvGet, h0, ih]

theorem kvSet_kvSet_same (m : KeyValueMap) (k : String) (v w : GoValue) :
    kvSet (kvSet m k v) k w = kvSet m k w := by
  induction m with
  | nil => simp [kvSet]
  | cons hd tl ih =>
    obtain ⟨k0, v0⟩ := hd
    by_cases h : k0 = k <;> simp [kvSet, h, ih]

theorem kvGet_isSome_kvSet (m : KeyValueMap) (k k2 : String) (v : GoValue) :
    (kvGet (kvSet m k v) k2).isSome = true ↔
      (k2 = k ∨ (kvGet m k2).isSome = true) := by
  by_cases h : k2 = k
  · subst h; simp [kvGet_kvSet_self]
  · simp [kvGet_kvSet_ne m k k2 v h, h]

/-! ## Structure of `BuildKeyValueMap` -/

/-- Processing one field is: bind on its emitted value, then a single
Go map write under its sanitized key (the base write followed by the
random overwrite collapses, both writes using the same key). -/
theorem buildKVFields_cons (draws : Nat → RandDraw) (i : Nat) (f : DataFields)
    (fs : List DataFields) (m : KeyValueMap) :
    buildKVFields draws i (f :: fs) m =
      (fieldEmittedValue f (draws i)).bind
        (fun v => buildKVFields draws (i + 1) fs (kvSet m f.SanitizedKey v)) := by
  simp only [buildKVFields, fieldEmittedValue]
  by_cases hr : f.UseRandom = true
  · simp only [hr, if_true]
    by_cases h1 : f.ValueType = IntType
    · simp only [h1, if_true]
      cases RandomIntInRange f.IntRandStart f.IntRandEnd (draws i).n with
      | none => simp
      | some v => simp [kvSet_kvSet_same]
    · simp only [h1, if_false]
      by_cases h2 : f.ValueType = FloatType
      · simp [h2, kvSet_kvSet_same]
      · simp only [h2, if_false]
        by_cases h3 : f.ValueType = StringType
        · simp only [h3, if_true]
          by_cases h4 : f.RandomStrings.length > 0
          · simp [h4, kvSet_kvSet_same]
          · simp [h4]
        · simp only [h3, if_false]
          by_cases h5 : f.ValueType = BoolType
          · simp [h5, kvSet_kvSet_same]
          · simp [h5]
  · simp [hr]

/-- Fields whose keys differ from `k` leave the binding of `k`
untouched. -/
theorem buildKVFields_preserves (draws : Nat → RandDraw) :
    ∀ (fs : List DataFields) (i : Nat) (m M : KeyValueMap) (k : String),
    k ∉ fs.map DataFields.SanitizedKey →
    buildKVFields draws i fs m = some M →
    kvGet M k = kvGet m k := by
  intro fs
  induction fs with
  | nil =>
    intro i m M k _ hb
    simp only [buildKVFields] at hb
    cases hb
    rfl
  | cons f fs ih =>
    intro i m M k hk hb
    rw [buildKVFields_cons] at hb
    simp only [List.map_cons, List.mem_cons, not_or] at hk
    cases hv : fieldEmittedValue f (draws i) with
    | none => rw [hv] at hb; simp at hb
    | some v =>
      rw [hv] at hb
      simp only [Option.some_bind] at hb
      rw [ih (i + 1) _ M k hk.2 hb]
      exact kvGet_kvSet_ne _ _ _ _ hk.1

/-- When all sanitized keys are distinct and the snapshot succeeds,
the final map holds, under each field's key, exactly that field's
emitted value, computed from that field's own draw. -/
theorem buildKVFields_lookup (draws : Nat → RandDraw) :
    ∀ (fs : List DataFields) (i : Nat) (m M : KeyValueMap),
    (fs.map DataFields.SanitizedKey).Nodup →
    buildKVFields draws i fs m = some M →
    ∀ j (hj : j < fs.length),
      kvGet M ((fs.get ⟨j, hj⟩).SanitizedKey) =
        fieldEmittedValue (fs.get ⟨j, hj⟩) (draws (i + j)) := by
  intro fs
  induction fs with
  | nil => intro i m M _ _ j hj; exact absurd hj (by simp)
  | cons f fs ih =>
    intro i m M hnd hb j hj
    rw [buildKVFields_cons] at hb
    simp only [List.map_cons, List.nodup_cons] at hnd
    cases hv : fieldEmittedValue f (draws i) with
    | none => rw [hv] at hb; simp at hb
    | some v =>
      rw [hv] at hb
      simp only [Option.some_bind] at hb
      cases j with
      | zero =>
        simp only [List.get, Nat.add_zero]
        rw [buildKVFields_preserves draws fs (i + 1) _ M f.SanitizedKey hnd.1 hb]
        rw [kvGet_kvSet_self, hv]
      | succ j2 =>
        have hj2 : j2 < fs.length := Nat.lt_of_succ_lt_succ hj
        have hidx : i + (j2 + 1) = i + 1 + j2 := by omega
        have h2 := ih (i + 1) _ M hnd.2 hb j2 hj2
        show kvGet M ((fs.get ⟨j2, hj2⟩).SanitizedKey) =
          fieldEmittedValue (fs.get ⟨j2, hj2⟩) (draws (i + (j2 + 1)))
        rw [hidx]
        exact h2

/-- A key is bound in a successful snapshot exactly when it was bound
before or is some processed field's sanitized key. -/
theorem buildKVFields_keys (draws : Nat → RandDraw) :
    ∀ (fs : List DataFields) (i : Nat) (m M : KeyValueMap),
    buildKVFields draws i fs m = some M →
    ∀ k, (kvGet M k).isSome = true ↔
      ((kvGet m k).isSome = true ∨ k ∈ fs.map DataFields.SanitizedKey) := by
  intro fs
  induction fs with
  | nil =>
    intro i m M hb k
    simp only [buildKVFields] at hb
    cases hb
    simp
  | cons f fs ih =>
    intro i m M hb k
    rw [buildKVFields_cons] at hb
    cases hv : fieldEmittedValue f (draws i) with
    | none => rw [hv] at hb; simp at hb
    | some v =>
      rw [hv] at hb
      simp only [Option.some_bind] at hb
      rw [ih (i + 1) _ M hb k]
      rw [kvGet_isSome_kvSet]
      simp only [List.map_cons, List.mem_cons]
      tauto

/-! ## Claim C6 -/

/-- Core range fact about `RandomIntInRange` for bounds whose span
does not overflow the 64-bit subtraction. -/
theorem randomIntInRange_mem (lo hi : Int) (d : Nat)
    (hlo : -9223372036854775808 ≤ lo) (hhi : hi ≤ 9223372036854775807)
    (hle : lo ≤ hi) (hspan : hi - lo ≤ 9223372036854775806) :
    ∃ r, RandomIntInRange lo hi d = some r ∧ lo ≤ r ∧ r ≤ hi := by
  have h1 : wrap64 (hi - lo) = hi - lo := wrap64_eq_self _ (by omega) (by omega)
  have h2 : wrap64 (hi - lo + 1) = hi - lo + 1 := wrap64_eq_self _ (by omega) (by omega)
  have hn : (0 : Int) < hi - lo + 1 := by omega
  have hr0 : 0 ≤ (d : Int) % (hi - lo + 1) := Int.emod_nonneg _ (by omega)
  have hr1 : (d : Int) % (hi - lo + 1) < hi - lo + 1 := Int.emod_lt_of_pos _ hn
  refine ⟨(d : Int) % (hi - lo + 1) + lo, ?_, by omega, by omega⟩
  unfold RandomIntInRange goIntn
  rw [h1, h2, if_pos hn]
  simp only [Option.map_some']
  rw [wrap64_eq_self _ (by omega) (by omega)]

/-- C6 counterexample: the claim quantifies over all ints with
`hi ≥ lo`, but at `lo = -2^63`, `hi = 2^63 - 1` the Go expression
`end - start + 1` wraps around to `0` and `rand.Intn` panics instead
of returning a value in `[lo, hi]`. -/
theorem RandomIntInRange_overflow_cex :
    (-9223372036854775808 : Int) ≤ 9223372036854775807 ∧
    RandomIntInRange (-9223372036854775808) 9223372036854775807 0 = none := by
  constructor
  · decide
  · decide

/-- C6 (amended): for all 64-bit ints `lo ≤ hi` whose span `hi - lo`
stays below `2^63 - 1` (so `end - start + 1` does not overflow),
`RandomIntInRange lo hi` returns a value in `[lo, hi]` inclusive, and
every random int field draw of a snapshot with such bounds yields a
value in `[IntRandStart, IntRandEnd]` inclusive. -/
theorem RandomIntInRange_in_range :
    (∀ (lo hi : Int) (d : Nat),
      -9223372036854775808 ≤ lo → hi ≤ 9223372036854775807 → lo ≤ hi →
      hi - lo ≤ 9223372036854775806 →
      ∃ r, RandomIntInRange lo hi d = some r ∧ lo ≤ r ∧ r ≤ hi) ∧
    (∀ (f : DataFields) (d : RandDraw),
      f.UseRandom = true → f.ValueType = IntType →
      -9223372036854775808 ≤ f.IntRandStart →
      f.IntRandEnd ≤ 9223372036854775807 →
      f.IntRandStart ≤ f.IntRandEnd →
      f.IntRandEnd - f.IntRandStart ≤ 9223372036854775806 →
      ∃ v, fieldEmittedValue f d = some (GoValue.int v) ∧
        f.IntRandStart ≤ v ∧ v ≤ f.IntRandEnd) := by
  constructor
  · exact randomIntInRange_mem
  · intro f d hr ht h1 h2 h3 h4
    obtain ⟨r, hre, hb1, hb2⟩ :=
      randomIntInRange_mem f.IntRandStart f.IntRandEnd d.n h1 h2 h3 h4
    refine ⟨r, ?_, hb1, hb2⟩
    simp [fieldEmittedValue, hr, ht, hre]

/-- Sample random int field (bounds of the first demo event's
"Total Count" field, widened to `[0, 10]`). -/
def fldIntSample : DataFields :=
  { Name := "Total Count"
    Value := .int 0
    ValueType := IntType
    UseRandom := true
    IntRandStart := 0
    IntRandEnd := 10
    FloatRandStart := 0
    FloatRandEnd := 0
    RandomStrings := [] }

theorem RandomIntInRange_in_range_witness :
    (∃ r, RandomIntInRange 1 3 5 = some r ∧ 1 ≤ r ∧ r ≤ 3) ∧
    (∃ v, fieldEmittedValue fldIntSample ⟨5, 0⟩ = some (GoValue.int v) ∧
      0 ≤ v ∧ v ≤ 10) :=
  ⟨RandomIntInRange_in_range.1 1 3 5 (by decide) (by decide) (by decide)
      (by decide),
    RandomIntInRange_in_range.2 fldIntSample ⟨5, 0⟩ (by decide) (by decide)
      (by decide) (by decide) (by decide) (by decide)⟩

/-! ## Claim C2 -/

/-- C2: the simulation engine leaves Stopped for Running only when at
least one event definition is tracked: a start with zero tracked
definitions fails (400) with the state unchanged (still stopped), and
a start while already Running is rejected with a conflict (409) and
changes nothing. -/
theorem startSimulation_state_machine (st : Sys) :
    (st.simRunning = false → st.events = [] →
      startSimulationHandler st = (.badRequest, st)) ∧
    (st.simRunning = true →
      startSimulationHandler st = (.conflict, st)) ∧
    (∀ r st2, startSimulationHandler st = (r, st2) →
      st.simRunning = false → st2.simRunning = true → st.events ≠ []) := by
  refine ⟨?_, ?_, ?_⟩
  · intro h1 h2
    simp [startSimulationHandler, h1, h2]
  · intro h1
    simp [startSimulationHandler, h1]
  · intro r st2 hrun h1 h2
    intro hnil
    rw [startSimulationHandler] at hrun
    simp [h1, hnil] at hrun
    rw [← hrun.2] at h2
    rw [h1] at h2
    exact Bool.false_ne_true h2

/-! ## Claim C1 -/

theorem getD_mem_of_lt (l : List String) (n : Nat) (h : n < l.length) :
    l.getD n "" ∈ l := by
  induction l generalizing n with
  | nil => exact absurd h (by simp)
  | cons a t ih =>
    cases n with
    | zero => simp
    | succ n2 =>
      rw [List.getD_cons_succ]
      exact List.mem_cons_of_mem _ (ih n2 (Nat.lt_of_succ_lt_succ h))

theorem randomStringFromSlice_mem (choices : List String) (d : Nat)
    (h : choices ≠ []) : RandomStringFromSlice choices d ∈ choices := by
  have hlen : 0 < choices.length := List.length_pos.mpr h
  unfold RandomStringFromSlice
  rw [if_neg (by omega)]
  exact getD_mem_of_lt choices _ (Nat.mod_lt _ hlen)

/-- C1 (amended): for an event definition whose sanitized field keys
are pairwise distinct, every successful emission snapshot maps each
data field's normalized key to exactly the value the claim specifies
for that field (`fieldEmittedValue`): the coerced static value when
`use_random` is false; otherwise an int drawn by
`RandomIntInRange(IntRandStart, IntRandEnd)`, a float drawn by
`RandomFloatInRange(FloatRandStart, FloatRandEnd)`, a member of
`RandomStrings` (falling back to the coerced static value when that
set is empty), or a random bool, per the declared type. Without the
distinctness proviso a later field overwrites an earlier one sharing
the same normalized key (see the counterexample). -/
theorem BuildKeyValueMap_maps_each_key :
    (∀ (e : EvaEvent) (draws : Nat → RandDraw) (m : KeyValueMap),
      (e.DataFields.map DataFields.SanitizedKey).Nodup →
      BuildKeyValueMap e draws = some m →
      ∀ j (hj : j < e.DataFields.length),
        kvGet m ((e.DataFields.get ⟨j, hj⟩).SanitizedKey) =
          fieldEmittedValue (e.DataFields.get ⟨j, hj⟩) (draws j)) ∧
    (∀ (choices : List String) (d : Nat), choices ≠ [] →
      RandomStringFromSlice choices d ∈ choices) := by
  constructor
  · intro e draws m hnd hb j hj
    have h := buildKVFields_lookup draws e.DataFields 0 [] m hnd hb j hj
    simpa using h
  · exact randomStringFromSlice_mem

/-- Two static int fields whose names normalize to the same key. -/
def fldA : DataFields :=
  { Name := "A B"
    Value := .int 1
    ValueType := IntType
    UseRandom := false
    IntRandStart := 0
    IntRandEnd := 0
    FloatRandStart := 0
    FloatRandEnd := 0
    RandomStrings := [] }

def fldB : DataFields := { fldA with Name := "AB", Value := .int 2 }

/-- An event definition with colliding sanitized keys (nothing in the
code rejects it). -/
def evDup : EvaEvent :=
  { ID := 1
    Name := "Dup"
    UseInterval := some false
    IntervalSeconds := 0
    DataFields := [fldA, fldB]
    Stateless := some true
    PlatformEvent := none
    EventId := 0 }

def draws0 : Nat → RandDraw := fun _ => { n := 0, q := 0 }

/-- C1 counterexample: in `evDup` both fields normalize to the key
"ab"; the snapshot maps that key to the second field's value, so the
first field's key is not mapped to the first field's (claim-specified)
value. -/
theorem BuildKeyValueMap_duplicate_key_cex :
    fldA.SanitizedKey = fldB.SanitizedKey ∧
    fldA ≠ fldB ∧
    BuildKeyValueMap evDup draws0 = some [(fldA.SanitizedKey, GoValue.int 2)] ∧
    fieldEmittedValue fldA (draws0 0) = some (GoValue.int 1) ∧
    kvGet [(fldA.SanitizedKey, GoValue.int 2)] fldA.SanitizedKey ≠
      some (GoValue.int 1) :=
  ⟨by decide, by decide, by decide, by decide, by decide⟩

/-- A well-formed event: one static string field, one random bool
field. -/
def fldStatic : DataFields :=
  { Name := "Scenario"
    Value := .str ("Zone A")
    ValueType := StringType
    UseRandom := false
    IntRandStart := 0
    IntRandEnd := 0
    FloatRandStart := 0
    FloatRandEnd := 0
    RandomStrings := [] }

def fldBool : DataFields :=
  { fldStatic with
    Name := "Active"
    Value := .bool true
    ValueType := BoolType
    UseRandom := true }

def evOk : EvaEvent :=
  { ID := 1
    Name := "Motion Detection"
    UseInterval := some true
    IntervalSeconds := 2
    DataFields := [fldStatic, fldBool]
    Stateless := some false
    PlatformEvent := none
    EventId := 0 }

/-- The snapshot of `evOk` under the all-zero draw stream. -/
def mOk : KeyValueMap :=
  [("scenario", GoValue.str ("Zone A")), ("active", GoValue.bool true)]

theorem BuildKeyValueMap_maps_each_key_witness :
    (kvGet mOk ((evOk.DataFields.get ⟨1, by decide⟩).SanitizedKey) =
      fieldEmittedValue (evOk.DataFields.get ⟨1, by decide⟩) (draws0 1)) ∧
    RandomStringFromSlice ["Person", "Vehicle"] 3 ∈
      (["Person", "Vehicle"] : List String) :=
  ⟨BuildKeyValueMap_maps_each_key.1 evOk draws0 mOk (by decide) (by decide) 1
      (by decide),
   BuildKeyValueMap_maps_each_key.2 ["Person", "Vehicle"] 3 (by decide)⟩

/-! ## Claim C9 -/

theorem goRemoveSpaces_eq_filter (l : List Char) :
    goRemoveSpaces l = l.filter (fun c => !(c == ' ')) := by
  induction l with
  | nil => rfl
  | cons c cs ih =>
    by_cases h : c = ' '
    · simp [goRemoveSpaces, h, List.filter_cons, ih]
    · simp [goRemoveSpaces, h, List.filter_cons, ih]

/-- C9 (amended): the derived platform key equals the field's name
lower-cased with all space characters (U+0020, and only those)
removed — other whitespace such as tabs survives — and it is exactly
the key used for every schema entry and bound in every successful
emission payload. Uniqueness within a field list is NOT enforced by
the code: distinct fields may normalize to the same key (see the
counterexample). -/
theorem sanitizedKey_lower_space_stripped :
    (∀ name : String, (sanitizeEventName name).toList =
      (name.toList.map goToLowerChar).filter (fun c => !(c == ' '))) ∧
    (∀ (e : EvaEvent) (pe : CameraPlatformEvent),
      SetupPlatformEvent e = some pe →
      pe.Entries.map EventEntry.Key =
        e.DataFields.map (fun f => sanitizeEventName f.Name)) ∧
    (∀ (e : EvaEvent) (draws : Nat → RandDraw) (m : KeyValueMap),
      BuildKeyValueMap e draws = some m →
      ∀ k, (kvGet m k).isSome = true ↔
        k ∈ e.DataFields.map (fun f => sanitizeEventName f.Name)) := by
  refine ⟨?_, ?_, ?_⟩
  · intro name
    exact goRemoveSpaces_eq_filter _
  · intro e pe hpe
    cases hst : e.Stateless with
    | none => rw [SetupPlatformEvent, hst] at hpe; cases hpe
    | some st =>
      rw [SetupPlatformEvent, hst] at hpe
      cases hpe
      simp [mkEventEntry, DataFields.SanitizedKey]
  · intro e draws m hb k
    have h := buildKVFields_keys draws e.DataFields 0 [] m hb k
    simpa [kvGet, DataFields.SanitizedKey] using h

/-- C9 counterexample: a tab is not stripped (the code removes only
`' '`), and nothing makes sanitized keys unique within a field
list — `evDup`'s two distinct fields share one key. -/
theorem sanitizedKey_whitespace_unique_cex :
    sanitizeEventName ("A\tB") = "a\tb" ∧
    ("a\tb" : String) ≠ "ab" ∧
    fldA.Name ≠ fldB.Name ∧
    fldA.SanitizedKey = fldB.SanitizedKey ∧
    ¬ (evDup.DataFields.map DataFields.SanitizedKey).Nodup :=
  ⟨by decide, by decide, by decide, by decide, by decide⟩

/-- The platform schema `SetupPlatformEvent` produces for `evOk`. -/
def peOk : CameraPlatformEvent :=
  { Name := "motiondetection"
    NiceName := some ("Eva - Motion Detection")
    Entries :=
      [{ Key := "scenario"
         Value := .str ("Zone A")
         ValueType := .axString
         KeyNiceName := some ("Scenario")
         IsData := some true },
       { Key := "active"
         Value := .bool true
         ValueType := .axBool
         KeyNiceName := some ("Active")
         IsData := some true }]
    Stateless := false }

theorem sanitizedKey_lower_space_stripped_witness :
    ((sanitizeEventName ("Motion Detection")).toList =
      (("Motion Detection" : String).toList.map goToLowerChar).filter
        (fun c => !(c == ' '))) ∧
    (peOk.Entries.map EventEntry.Key =
      evOk.DataFields.map (fun f => sanitizeEventName f.Name)) ∧
    ((kvGet mOk ("active")).isSome = true ↔
      ("active" : String) ∈ evOk.DataFields.map (fun f => sanitizeEventName f.Name)) :=
  ⟨sanitizedKey_lower_space_stripped.1 ("Motion Detection"),
   sanitizedKey_lower_space_stripped.2.1 evOk peOk (by decide),
   sanitizedKey_lower_space_stripped.2.2 evOk draws0 mOk (by decide) ("active")⟩

/-! ## Claim C5 -/

theorem unregisterEvent_ok (p : Platform) (e : EvaEvent)
    (hok : (unregisterEvent p e).res = GoResult.ok ()) :
    (unregisterEvent p e).event.EventId = 0 := by
  unfold unregisterEvent at hok ⊢
  by_cases h : e.EventId ≠ 0
  · rw [if_pos h] at hok ⊢
    cases hu : p.undeclareRes e.EventId with
    | some msg => rw [hu] at hok; exact absurd hok (by simp)
    | none => rfl
  · rw [if_neg h] at hok ⊢
    push_neg at h
    exact h

theorem unregisterEvent_zero (p : Platform) (e : EvaEvent)
    (h : e.EventId = 0) :
    unregisterEvent p e = { res := .ok (), event := e, calls := [] } := by
  unfold unregisterEvent
  rw [if_neg (by simp [h])]

/-- C5: a successful `registerEvent` followed by a successful
`unregisterEvent` leaves the event's platform handle at zero, and a
further `unregisterEvent` on the zero handle is a no-op that performs
no platform call and changes nothing; when the platform's undeclare
fails, the handle keeps its previous non-zero value and the error is
returned. -/
theorem register_unregister_idempotent :
    (∀ (p : Platform) (e : EvaEvent) (o1 o2 : OpOut),
      registerEvent p e = o1 → o1.res = .ok () →
      unregisterEvent p o1.event = o2 → o2.res = .ok () →
      o2.event.EventId = 0 ∧
      unregisterEvent p o2.event =
        { res := .ok (), event := o2.event, calls := [] }) ∧
    (∀ (p : Platform) (e : EvaEvent) (msg : String),
      e.EventId ≠ 0 → p.undeclareRes e.EventId = some msg →
      unregisterEvent p e =
        { res := .err msg, event := e, calls := [.undeclare e.EventId] }) := by
  constructor
  · intro p e o1 o2 h1 h1ok h2 h2ok
    subst h1
    subst h2
    have hz := unregisterEvent_ok p (registerEvent p e).event h2ok
    exact ⟨hz, unregisterEvent_zero p _ hz⟩
  · intro p e msg h hu
    unfold unregisterEvent
    rw [if_pos h, hu]

/-- A platform on which declare and undeclare both succeed. -/
def pOk : Platform :=
  { declareRes := fun _ => .ok 7, undeclareRes := fun _ => none }

/-- A platform on which undeclare fails. -/
def pErr : Platform :=
  { declareRes := fun _ => .ok 7, undeclareRes := fun _ => some ("boom") }

theorem register_unregister_idempotent_witness :
    ((unregisterEvent pOk (registerEvent pOk evOk).event).event.EventId = 0 ∧
      unregisterEvent pOk (unregisterEvent pOk (registerEvent pOk evOk).event).event =
        { res := .ok ()
          event := (unregisterEvent pOk (registerEvent pOk evOk).event).event
          calls := [] }) ∧
    unregisterEvent pErr { evOk with EventId := 9 } =
      { res := .err ("boom")
        event := { evOk with EventId := 9 }
        calls := [.undeclare 9] } :=
  ⟨register_unregister_idempotent.1 pOk evOk (registerEvent pOk evOk)
      (unregisterEvent pOk (registerEvent pOk evOk).event) rfl (by decide) rfl
      (by decide),
   register_unregister_idempotent.2 pErr { evOk with EventId := 9 } ("boom")
      (by decide) rfl⟩

/-! ## Claim C10 -/

theorem registerEvent_stateless_nil (p : Platform) (e : EvaEvent)
    (h : e.Stateless = none) :
    registerEvent p e = { res := .panic, event := e, calls := [] } := by
  unfold registerEvent SetupPlatformEvent
  rw [h]

/-- C10: a nil `Stateless` pointer (request body without the
`stateless` field) makes `SetupPlatformEvent` dereference nil and
panic; registration is total only when `Stateless` is non-nil, and
neither the create handler, the update handler, nor the startup
`RegisterAllEvents` loop checks or establishes this before calling
`registerEvent`. -/
theorem stateless_nil_panics :
    (∀ e : EvaEvent, e.Stateless = none → SetupPlatformEvent e = none) ∧
    (∀ (p : Platform) (e : EvaEvent), e.Stateless = none →
      registerEvent p e = { res := .panic, event := e, calls := [] }) ∧
    (∀ (p : Platform) (st : Sys) (ev : EvaEvent),
      st.simRunning = false → ev.Stateless = none →
      (createEventHandler p st (some ev) false).status = .panic) ∧
    (∀ (p : Platform) (e : EvaEvent) (es : List EvaEvent),
      e.Stateless = none → (RegisterAllEvents p (e :: es)).1 = .panic) ∧
    (∀ (p : Platform) (st : Sys) (pid : Nat)
      (bindRes : EvaEvent → Option EvaEvent) (row ev r : EvaEvent),
      st.simRunning = false → dbFind st.db pid = some row →
      bindRes row = some ev → ev.Stateless = none →
      findRegisteredEvent st.events ev.ID = some r →
      (updateEventHandler p st pid bindRes false).status = .panic) := by
  refine ⟨?_, ?_, ?_, ?_, ?_⟩
  · intro e h
    unfold SetupPlatformEvent
    rw [h]
  · exact registerEvent_stateless_nil
  · intro p st ev hrun hst
    have hst2 : ({ ev with ID := st.nextId } : EvaEvent).Stateless = none := hst
    have hreg := registerEvent_stateless_nil p { ev with ID := st.nextId } hst2
    simp [createEventHandler, hrun, hreg]
  · intro p e es h
    have hreg := registerEvent_stateless_nil p e h
    simp [RegisterAllEvents, hreg]
  · intro p st pid bindRes row ev r hrun hfind hbind hst hreg2
    have hreg := registerEvent_stateless_nil p ev hst
    simp [updateEventHandler, hrun, hfind, hbind, hreg, hreg2]

/-- An event whose `Stateless` pointer is nil. -/
def evNil : EvaEvent :=
  { ID := 1
    Name := "Nil Stateless"
    UseInterval := some false
    IntervalSeconds := 0
    DataFields := []
    Stateless := none
    PlatformEvent := none
    EventId := 0 }

/-- A previously registered copy of the same row. -/
def evReg : EvaEvent := { evNil with Stateless := some true, EventId := 7 }

def stUpd : Sys := { db := [evNil], nextId := 2, events := [evReg], simRunning := false }

theorem stateless_nil_panics_witness :
    SetupPlatformEvent evNil = none ∧
    registerEvent pOk evNil = { res := .panic, event := evNil, calls := [] } ∧
    (createEventHandler pOk { db := [], nextId := 1, events := [], simRunning := false }
      (some evNil) false).status = .panic ∧
    (RegisterAllEvents pOk [evNil]).1 = .panic ∧
    (updateEventHandler pOk stUpd 1 (fun _ => some evNil) false).status = .panic :=
  ⟨stateless_nil_panics.1 evNil rfl,
   stateless_nil_panics.2.1 pOk evNil rfl,
   stateless_nil_panics.2.2.1 pOk _ evNil rfl rfl,
   stateless_nil_panics.2.2.2.1 pOk evNil [] rfl,
   stateless_nil_panics.2.2.2.2 pOk stUpd 1 (fun _ => some evNil) evNil evNil
     evReg rfl (by decide) rfl rfl (by decide)⟩

/-! ## Claim C3 -/

theorem unitFract_nonneg (q : Rat) : 0 ≤ unitFract q := by
  have h : ((Rat.floor q : Int) : Rat) ≤ q := Rat.le_floor.mp (le_refl _)
  unfold unitFract
  linarith

theorem unitFract_of_unit (q : Rat) (h0 : 0 ≤ q) (h1 : q < 1) :
    unitFract q = q := by
  have ha : 0 ≤ Rat.floor q := Rat.le_floor.mpr (by exact_mod_cast h0)
  have hb : ¬ 1 ≤ Rat.floor q := by
    intro hc
    have hcast := Rat.le_floor.mp hc
    push_cast at hcast
    linarith
  have hz : Rat.floor q = 0 := by omega
  unfold unitFract
  rw [hz]
  norm_num

theorem unitFract_lt_one (q : Rat) : unitFract q < 1 := by
  unfold unitFract
  by_contra hcon
  push_neg at hcon
  have h2 : ((Rat.floor q + 1 : Int) : Rat) ≤ q := by push_cast; linarith
  have h3 : Rat.floor q + 1 ≤ Rat.floor q := Rat.le_floor.mpr h2
  omega

/-- C3 (spec-modelled): every waiting delay of a running
random-interval timer task is a fresh per-firing uniform draw lying in
`[intervalMinSeconds, intervalMaxSeconds]`, and for non-degenerate
bounds the draws of different firings can differ (the delay sequence
is not constant in the randomness source), so observed delays are not
all identical. -/
theorem randomIntervalDelay_range :
    (∀ (minS maxS : Rat) (us : Nat → Rat) (k : Nat), minS ≤ maxS →
      minS ≤ randomIntervalDelays minS maxS us k ∧
      randomIntervalDelays minS maxS us k ≤ maxS) ∧
    (∀ minS maxS : Rat, minS < maxS →
      ∃ (us : Nat → Rat) (j k : Nat),
        randomIntervalDelays minS maxS us j ≠ randomIntervalDelays minS maxS us k) := by
  constructor
  · intro minS maxS us k h
    have h0 := unitFract_nonneg (us k)
    have h1 := unitFract_lt_one (us k)
    unfold randomIntervalDelays randomIntervalDelay
    constructor
    · nlinarith
    · nlinarith
  · intro minS maxS h
    refine ⟨fun k => if k = 0 then 0 else 1/2, 0, 1, ?_⟩
    have h0 : unitFract 0 = 0 := unitFract_of_unit 0 (le_refl 0) (by norm_num)
    have h12 : unitFract (1/2) = 1/2 :=
      unitFract_of_unit (1/2) (by norm_num) (by norm_num)
    show minS + (maxS - minS) * unitFract (if (0:Nat) = 0 then 0 else 1/2) ≠
      minS + (maxS - minS) * unitFract (if (1:Nat) = 0 then 0 else 1/2)
    rw [if_pos rfl, if_neg (by omega), h0, h12]
    intro hcon
    nlinarith

theorem randomIntervalDelay_range_witness :
    ((1:Rat) ≤ randomIntervalDelays 1 2 (fun _ => 0) 0 ∧
      randomIntervalDelays 1 2 (fun _ => 0) 0 ≤ 2) ∧
    (∃ (us : Nat → Rat) (j k : Nat),
      randomIntervalDelays 1 2 us j ≠ randomIntervalDelays 1 2 us k) :=
  ⟨randomIntervalDelay_range.1 1 2 (fun _ => 0) 0 (by norm_num),
   randomIntervalDelay_range.2 1 2 (by norm_num)⟩

theorem startSimulation_state_machine_witness :
    (startSimulationHandler { db := [], nextId := 1, events := [], simRunning := false } =
      (.badRequest, { db := [], nextId := 1, events := [], simRunning := false })) ∧
    (startSimulationHandler { db := [], nextId := 1, events := [], simRunning := true } =
      (.conflict, { db := [], nextId := 1, events := [], simRunning := true })) :=
  ⟨(startSimulation_state_machine _).1 rfl rfl,
   (startSimulation_state_machine _).2.1 rfl⟩

/-! ## Claim C4 -/

/-- Unfolding of `registerEvent` when the schema build succeeds. -/
theorem registerEvent_eq (p : Platform) (e : EvaEvent)
    (pe : CameraPlatformEvent) (hpe : SetupPlatformEvent e = some pe) :
    registerEvent p e =
      match p.declareRes pe with
      | .error msg =>
        { res := .err msg
          event := { e with PlatformEvent := some pe }
          calls := [.declare pe] }
      | .ok regId =>
        { res := .ok ()
          event := { e with PlatformEvent := some pe, EventId := regId }
          calls := [.declare pe] } := by
  unfold registerEvent
  rw [hpe]

/-- The create handler's success path for an arbitrary definition:
persist, append, register. -/
theorem createEventHandler_success (p : Platform) (st : Sys) (ev : EvaEvent)
    (hrun : st.simRunning = false)
    (hne : (registerEvent p { ev with ID := st.nextId }).res ≠ GoResult.panic) :
    createEventHandler p st (some ev) false =
      { status := .ok 201
        sys :=
          { st with
            db := st.db ++ [{ ev with ID := st.nextId }]
            nextId := st.nextId + 1
            events := st.events ++ [(registerEvent p { ev with ID := st.nextId }).event] }
        calls := (registerEvent p { ev with ID := st.nextId }).calls } := by
  unfold createEventHandler
  rw [if_neg (by simp [hrun])]
  cases hres : (registerEvent p { ev with ID := st.nextId }).res with
  | panic => exact absurd hres hne
  | err msg => simp [hres]
  | ok a => simp [hres]

/-- C4 (amended): the create operation performs no semantic
validation. A request body that fails JSON binding is rejected with
400 before any mutation, and a failing `db.Create` leaves both stores
unchanged (500); but every successfully bound definition — including
one with a missing name, inverted random bounds, or an empty random
string set — is persisted, appended to the in-memory registry, and
registered (201), so a malformed definition is NOT rejected before
mutation. -/
theorem createEvent_no_validation :
    (∀ (p : Platform) (st : Sys) (cf : Bool), st.simRunning = false →
      createEventHandler p st none cf =
        { status := .ok 400, sys := st, calls := [] }) ∧
    (∀ (p : Platform) (st : Sys) (ev : EvaEvent), st.simRunning = false →
      createEventHandler p st (some ev) true =
        { status := .ok 500, sys := st, calls := [] }) ∧
    (∀ (p : Platform) (st : Sys) (ev : EvaEvent) (b : Bool),
      st.simRunning = false → ev.Stateless = some b →
      createEventHandler p st (some ev) false =
        { status := .ok 201
          sys :=
            { st with
              db := st.db ++ [{ ev with ID := st.nextId }]
              nextId := st.nextId + 1
              events := st.events ++ [(registerEvent p { ev with ID := st.nextId }).event] }
          calls := (registerEvent p { ev with ID := st.nextId }).calls }) := by
  refine ⟨?_, ?_, ?_⟩
  · intro p st cf hrun
    unfold createEventHandler
    rw [if_neg (by simp [hrun])]
  · intro p st ev hrun
    unfold createEventHandler
    rw [if_neg (by simp [hrun])]
    rfl
  · intro p st ev b hrun hst
    have hst2 : ({ ev with ID := st.nextId } : EvaEvent).Stateless = some b := hst
    have hpe : SetupPlatformEvent { ev with ID := st.nextId } =
        some { Name := sanitizeEventName ev.Name
               NiceName := some ("Eva - " ++ ev.Name)
               Entries := ev.DataFields.map mkEventEntry
               Stateless := b } := by
      unfold SetupPlatformEvent
      rw [hst2]
    refine createEventHandler_success p st ev hrun ?_
    rw [registerEvent_eq p _ _ hpe]
    cases p.declareRes _ <;> simp

/-- A malformed definition: empty name, inverted int random bounds. -/
def fldBad : DataFields :=
  { fldA with
    Name := "x"
    Value := .int 0
    UseRandom := true
    IntRandStart := 5
    IntRandEnd := 3 }

def evBad : EvaEvent :=
  { ID := 0
    Name := ""
    UseInterval := some false
    IntervalSeconds := 0
    DataFields := [fldBad]
    Stateless := some true
    PlatformEvent := none
    EventId := 0 }

def st0 : Sys := { db := [], nextId := 1, events := [], simRunning := false }

/-- C4 counterexample: a definition with a missing name and inverted
random bounds is accepted with 201 while stopped, and both the
persisted store and the in-memory list change — it is not rejected
before any Registry or persistence mutation. -/
theorem createEvent_malformed_accepted_cex :
    evBad.Name = "" ∧
    (fldBad.UseRandom = true ∧ fldBad.ValueType = IntType ∧
      fldBad.IntRandEnd < fldBad.IntRandStart) ∧
    (createEventHandler pOk st0 (some evBad) false).status = .ok 201 ∧
    (createEventHandler pOk st0 (some evBad) false).sys.db ≠ st0.db ∧
    (createEventHandler pOk st0 (some evBad) false).sys.events ≠ st0.events :=
  ⟨by decide, by decide, by decide, by decide, by decide⟩

theorem createEvent_no_validation_witness :
    createEventHandler pOk st0 none false =
      { status := .ok 400, sys := st0, calls := [] } ∧
    createEventHandler pOk st0 (some evOk) true =
      { status := .ok 500, sys := st0, calls := [] } ∧
    createEventHandler pOk st0 (some evOk) false =
      { status := .ok 201
        sys :=
          { st0 with
            db := st0.db ++ [{ evOk with ID := st0.nextId }]
            nextId := st0.nextId + 1
            events := st0.events ++ [(registerEvent pOk { evOk with ID := st0.nextId }).event] }
        calls := (registerEvent pOk { evOk with ID := st0.nextId }).calls } :=
  ⟨createEvent_no_validation.1 pOk st0 false rfl,
   createEvent_no_validation.2.1 pOk st0 evOk rfl,
   createEvent_no_validation.2.2 pOk st0 evOk false rfl rfl⟩

/-! ## Claim C7 -/

/-- C7: updating a tracked, registered definition while stopped makes
exactly one platform undeclare of the existing handle, then overwrites
the stored definition wholesale with the bound new definition, then
makes exactly one platform declare whose schema carries the new
namespaced display name "Eva - name", storing the fresh handle. -/
theorem updateEvent_unregister_overwrite_register
    (p : Platform) (st : Sys) (pid : Nat) (bindRes : EvaEvent → Option EvaEvent)
    (row ev r : EvaEvent) (pe : CameraPlatformEvent) (rid : Int)
    (hrun : st.simRunning = false)
    (hrow : dbFind st.db pid = some row)
    (hbind : bindRes row = some ev)
    (hr : findRegisteredEvent st.events ev.ID = some r)
    (hrid : r.EventId ≠ 0)
    (hund : p.undeclareRes r.EventId = none)
    (hpe : SetupPlatformEvent ev = some pe)
    (hdecl : p.declareRes pe = .ok rid) :
    updateEventHandler p st pid bindRes false =
      { status := .ok 200
        sys :=
          { st with
            db := dbSave st.db ev
            events := replaceById st.events ev.ID
              { ev with PlatformEvent := some pe, EventId := rid } }
        calls := [.undeclare r.EventId, .declare pe] } ∧
    pe.NiceName = some ("Eva - " ++ ev.Name) := by
  constructor
  · have hu : unregisterEvent p r =
        { res := .ok (), event := { r with EventId := 0 },
          calls := [.undeclare r.EventId] } := by
      unfold unregisterEvent
      rw [if_pos hrid, hund]
    have hg := registerEvent_eq p ev pe hpe
    rw [hdecl] at hg
    unfold updateEventHandler
    simp only [hrun, Bool.false_eq_true, if_false, hrow, hbind, hr, hu, hg]
    rfl
  · cases hst : ev.Stateless with
    | none => rw [SetupPlatformEvent, hst] at hpe; cases hpe
    | some b => rw [SetupPlatformEvent, hst] at hpe; cases hpe; rfl

def stC7 : Sys :=
  { db := [evOk], nextId := 2, events := [{ evOk with EventId := 9 }],
    simRunning := false }

theorem updateEvent_unregister_overwrite_register_witness :
    (updateEventHandler pOk stC7 1 (fun _ => some evOk) false =
      { status := .ok 200
        sys :=
          { stC7 with
            db := dbSave stC7.db evOk
            events := replaceById stC7.events evOk.ID
              { evOk with PlatformEvent := some peOk, EventId := 7 } }
        calls := [.undeclare ({ evOk with EventId := 9 } : EvaEvent).EventId,
                  .declare peOk] } ∧
      peOk.NiceName = some ("Eva - " ++ evOk.Name)) :=
  updateEvent_unregister_overwrite_register pOk stC7 1 (fun _ => some evOk)
    evOk evOk { evOk with EventId := 9 } peOk 7 rfl (by decide) rfl (by decide)
    (by decide) rfl (by decide) rfl

/-! ## Claim C8 -/

/-- C8 (amended): when the database delete step fails, the error is
surfaced to the caller as an internal error (500), but the Registry
mutation is already visible: the handler unregisters the definition
and removes it from the in-memory list before calling `db.Delete`, so
after the failure the in-memory event list has changed while the
persisted store has not. -/
theorem deleteEvent_error_surfaced_registry_mutated
    (p : Platform) (st : Sys) (pid : Nat) (row r : EvaEvent)
    (hrun : st.simRunning = false)
    (hrow : dbFind st.db pid = some row)
    (hr : findRegisteredEvent st.events pid = some r) :
    deleteEventHandler p st pid true =
      { status := .ok 500
        sys := { st with events := removeRegisteredEvent st.events pid }
        calls := (unregisterEvent p r).calls } := by
  unfold deleteEventHandler
  simp only [hrun, Bool.false_eq_true, if_false, hrow, hr]
  rfl

def stDel : Sys :=
  { db := [evOk], nextId := 2, events := [{ evOk with EventId := 9 }],
    simRunning := false }

/-- C8 counterexample: with one tracked, registered event and a
failing `db.Delete`, the caller gets 500 but the in-memory event list
is no longer what it was before the request (the event was also
undeclared on the platform), contradicting "no partial Registry
mutation is visible afterward". -/
theorem deleteEvent_db_failure_cex :
    (deleteEventHandler pOk stDel 1 true).status = .ok 500 ∧
    (deleteEventHandler pOk stDel 1 true).sys.events ≠ stDel.events ∧
    (deleteEventHandler pOk stDel 1 true).calls = [.undeclare 9] :=
  ⟨by decide, by decide, by decide⟩

theorem deleteEvent_error_surfaced_registry_mutated_witness :
    deleteEventHandler pOk stDel 1 true =
      { status := .ok 500
        sys := { stDel with events := removeRegisteredEvent stDel.events 1 }
        calls := (unregisterEvent pOk { evOk with EventId := 9 }).calls } :=
  deleteEvent_error_surfaced_registry_mutated pOk stDel 1 evOk
    { evOk with EventId := 9 } rfl (by decide) (by decide)

end Eva
